import Mathlib

/-!
Verification development for the inquir interactive prompting library.

The definitions below are a shallow embedding of src/src/inquir.ts (class
Inquir).  JavaScript strings are modelled by Lean strings, JS Map objects and
plain option objects by insertion-ordered association lists, and the JS
numeric values that can flow through the id counter (integers, NaN and
undefined) by the JSVal type.  Each definition carries a comment pointing at
the source lines it embeds.
-/

namespace Inquir

/-- JavaScript values that flow through the registry id counter and the id
field of stored prompts: an integer, NaN, or undefined.  The source keeps the
counter in the closure variable ctr of Inquir.prompts and writes it into the
id field of every added prompt. -/
inductive JSVal
  | undef
  | nan
  | num (n : ℤ)
deriving DecidableEq

/-- JS addition of 1 to a counter value, as in the expression ctr += 1 at
src/src/inquir.ts line 530: a number increments, while undefined + 1 and
NaN + 1 are both NaN. -/
def jsIncr : JSVal → JSVal
  | JSVal.num n => JSVal.num (n + 1)
  | _ => JSVal.nan

/-- JS strict equality on counter values, as used by the p.id === id test in
getById: NaN compares unequal to everything, including itself. -/
def jsEq : JSVal → JSVal → Bool
  | JSVal.num a, JSVal.num b => a == b
  | JSVal.undef, JSVal.undef => true
  | _, _ => false

/-- One decimal digit as a character. -/
def digitChar (n : ℕ) : Char := Char.ofNat (48 + n)

/-- Decimal digits of a natural number, fuelled recursion. -/
def natDecAux : ℕ → ℕ → List Char
  | 0, _ => []
  | fuel + 1, n =>
    if n < 10 then [digitChar n]
    else natDecAux fuel (n / 10) ++ [digitChar (n % 10)]

/-- Decimal representation of a natural number as a character list. -/
def natDecL (n : ℕ) : List Char := natDecAux (n + 1) n

/-- The string JavaScript produces for a counter value (String(x)), used by
the default Array.prototype.sort comparator inside lastId. -/
def jsNumStr : JSVal → List Char
  | JSVal.num n => if n < 0 then '-' :: natDecL n.natAbs else natDecL n.toNat
  | JSVal.nan => ['N', 'a', 'N']
  | JSVal.undef => ['u', 'n', 'd', 'e', 'f', 'i', 'n', 'e', 'd']

/-- Lexicographic comparison of character lists by code unit, the order the
JS default sort comparator applies to the stringified elements. -/
def charListLe : List Char → List Char → Bool
  | [], _ => true
  | _ :: _, [] => false
  | a :: as, b :: bs =>
    if a.toNat < b.toNat then true
    else if b.toNat < a.toNat then false
    else charListLe as bs

/-- Insert one value into a list kept ascending under the stringified
lexicographic order. -/
def insertByStr (x : JSVal) : List JSVal → List JSVal
  | [] => [x]
  | y :: ys =>
    if charListLe (jsNumStr x) (jsNumStr y) then x :: y :: ys
    else y :: insertByStr x ys

/-- JS Array.prototype.sort with the default comparator: sorts the elements
ascending by their string representations.  Used by lastId at
src/src/inquir.ts line 571. -/
def jsSortDefault (l : List JSVal) : List JSVal := l.foldr insertByStr []

/-- ASCII lowercasing of one character; models the case folding the i flag
of the namespace regular expression performs on ASCII input. -/
def lowerChar (c : Char) : Char :=
  if 65 ≤ c.toNat ∧ c.toNat ≤ 90 then Char.ofNat (c.toNat + 32) else c

/-- ASCII lowercasing of a character list. -/
def lowerL (s : List Char) : List Char := s.map lowerChar

/-- Boolean test that the first list is a prefix of the second. -/
def startsWithL : List Char → List Char → Bool
  | [], _ => true
  | _ :: _, [] => false
  | p :: ps, s :: ss => p == s && startsWithL ps ss

/-- The key test getAll applies at src/src/inquir.ts line 497:
the anchored case-insensitive regular expression built from the namespace,
tested against a stored key.  For namespaces free of regular-expression
metacharacters (all namespaces used in this development) this is exactly a
case-insensitive prefix test; note it does not require the namespace to be
followed by the colon separator. -/
def nsRegexTest (ns key : String) : Bool :=
  startsWithL (lowerL ns.data) (lowerL key.data)

/-- Insertion-ordered association list standing for a JS Map or a plain
object: set replaces the value of an existing key in place and otherwise
appends, exactly the key-ordering behaviour of Map.prototype.set and of
property assignment. -/
def mapSet {α : Type} : List (String × α) → String → α → List (String × α)
  | [], k, v => [(k, v)]
  | (k', v') :: rest, k, v =>
    if k' = k then (k, v) :: rest else (k', v') :: mapSet rest k v

/-- Lookup in the insertion-ordered association list (Map.prototype.get /
property read); none models undefined. -/
def mapGet {α : Type} : List (String × α) → String → Option α
  | [], _ => none
  | (k', v') :: rest, k => if k' = k then some v' else mapGet rest k

/-- Key removal (Map.prototype.delete); keys produced by mapSet are unique,
so removing the first occurrence is faithful. -/
def mapDelete {α : Type} : List (String × α) → String → List (String × α)
  | [], _ => []
  | (k', v') :: rest, k => if k' = k then rest else (k', v') :: mapDelete rest k

/-- A question definition before registration: the caller may leave type
absent (modelled by the empty string, which is also falsy in JS) and supply
a message. -/
structure PromptIn where
  type : String := ""
  message : String := ""
deriving DecidableEq

/-- A stored question definition, after methods.add has stamped the id, the
resolved name and the defaulted type (src/src/inquir.ts lines 530 to 535). -/
structure PromptDef where
  id : JSVal
  name : String
  type : String
  message : String
deriving DecidableEq

/-- The state one registry handle closes over: the shared underlying store
(this._prompts) and the closure counter ctr of Inquir.prompts. -/
structure RegState where
  store : List (String × PromptDef)
  ctr : JSVal
deriving DecidableEq

/-- The composite key builder toNamespace of Inquir.prompts
(src/src/inquir.ts line 457). -/
def toNs (ns key : String) : String := ns ++ ":" ++ key

/-- methods.getAll (src/src/inquir.ts lines 494 to 502): walks the store
keys in insertion order, keeps those matching the case-insensitive anchored
namespace regular expression, and reads each value back.  Keys of the store
are unique, so filtering entries and projecting values coincides with the
keys-filter-get pipeline of the source. -/
def getAll (ns : String) (store : List (String × PromptDef)) : List PromptDef :=
  (store.filter (fun kv => nsRegexTest ns kv.1)).map Prod.snd

/-- methods.getById (src/src/inquir.ts lines 510 to 513): first prompt of
getAll whose id field is strictly equal to the requested id, else null. -/
def getById (ns : String) (store : List (String × PromptDef)) (i : ℤ) : Option PromptDef :=
  (getAll ns store).find? (fun p => jsEq p.id (JSVal.num i))

/-- methods.add (src/src/inquir.ts lines 522 to 537), name-and-definition
form.  A falsy name (undefined or empty) only logs a warning and leaves the
state untouched, consuming no id.  Otherwise the counter is incremented
first (ctr += 1), the prompt is stamped with the fresh id, name and the
defaulted type, and stored under the composite key.  The second component is
the id assigned by this call, none when the call was the logged no-op. -/
def add (ns : String) (st : RegState) (nm : String) (p : PromptIn) :
    RegState × Option JSVal :=
  if nm = "" then (st, none)
  else
    let nextId := jsIncr st.ctr
    let pd : PromptDef :=
      { id := nextId, name := nm,
        type := if p.type = "" then "string" else p.type,
        message := p.message }
    ({ store := mapSet st.store (toNs ns nm) pd, ctr := nextId }, some nextId)

/-- A sequence of add calls through one handle, collecting the assigned ids
of the calls that stored a question. -/
def addAll (ns : String) (st : RegState) (inputs : List (String × PromptIn)) :
    RegState × List JSVal :=
  match inputs with
  | [] => (st, [])
  | (nm, p) :: rest =>
    let r := add ns st nm p
    let r2 := addAll ns r.1 rest
    (r2.1, r.2.toList ++ r2.2)

/-- The name branch of methods.remove (src/src/inquir.ts lines 545 to 552):
deletes the composite key.  A string name always passes the isValue guard,
whose failure only logs anyway. -/
def removeByName (ns : String) (st : RegState) (nm : String) : RegState :=
  { st with store := mapDelete st.store (toNs ns nm) }

/-- The id branch of methods.remove (src/src/inquir.ts line 546):
methods.getById(name).name reads the name property of the lookup result,
which is null when the id is absent, so the call throws a TypeError instead
of reaching the delete. -/
def removeById (ns : String) (st : RegState) (i : ℤ) : Except String RegState :=
  match getById ns st.store i with
  | none => Except.error "TypeError"
  | some p => Except.ok (removeByName ns st p.name)

/-- methods.destroy (src/src/inquir.ts lines 558 to 563): removes, by name,
every prompt getAll currently reports, then sets the counter to undefined. -/
def destroy (ns : String) (st : RegState) : RegState :=
  { store :=
      ((getAll ns st.store).map PromptDef.name).foldl
        (fun s nm => mapDelete s (toNs ns nm)) st.store,
    ctr := JSVal.undef }

/-- methods.lastId (src/src/inquir.ts lines 569 to 572): maps the prompts of
getAll to their ids, sorts with the default comparator, and pops the last
element; toDefault turns the undefined of popping an empty array into null
(none). -/
def lastId (ns : String) (store : List (String × PromptDef)) : Option JSVal :=
  (jsSortDefault ((getAll ns store).map PromptDef.id)).getLast?

/-- Acquiring a registry handle: Inquir.prompts seeds the closure counter
with toDefault(methods.lastId(), -1) at src/src/inquir.ts line 586. -/
def acquire (ns : String) (store : List (String × PromptDef)) : RegState :=
  { store := store, ctr := (lastId ns store).getD (JSVal.num (-1)) }

/-- The completion source held in options.completer, as dispatched by
Inquir.completionHandler (src/src/inquir.ts lines 132 to 158): absent
(null), a fixed array of candidates, or a unary synchronous function.  The
binary asynchronous form returns a callback-shaped resolver and is not
needed by any claim, so it is left out of this variant type. -/
inductive CompleterSrc
  | absent
  | fixed (cs : List String)
  | syncFn (f : String → List String)

/-- The nested filter helper of Inquir.completionHandler (line 134): keeps
the candidates of which the line is a prefix, via c.startsWith(line). -/
def compFilter (line : String) (comps : List String) : List String :=
  comps.filter (fun c => startsWithL line.data c.data)

/-- Inquir.completionHandler (src/src/inquir.ts lines 132 to 158) for the
synchronous shapes: an absent source or an empty fixed array yields the
trivial resolver returning no completions and the line unchanged; a fixed
array or a unary function yields the prefix-filtering resolver. -/
def completionHandler (completer : CompleterSrc) : String → List String × String :=
  match completer with
  | CompleterSrc.absent => fun l => ([], l)
  | CompleterSrc.fixed cs =>
    if cs.isEmpty then fun l => ([], l)
    else fun l => (compFilter l cs, l)
  | CompleterSrc.syncFn f => fun l => (compFilter l (f l), l)

/-- The key classification the masked-input handler derives from the last
keypress event (src/src/inquir.ts lines 214 to 215): return, a control
chord, backspace, or anything else (including no recorded key, which yields
the empty name and falls into the append branch). -/
inductive MaskKey
  | ret
  | ctrl
  | backspace
  | other
deriving DecidableEq

/-- The state the mask closure keeps: the prompt text (null after a
terminator), the private character buffer chars, and whether the raw
listeners are attached. -/
structure MaskState where
  prompt : Option (List Char)
  chars : List Char
  listening : Bool
deriving DecidableEq

/-- Mask text repeated once per buffered character, the expression
mask.repeat(chars.length). -/
def maskRepeat (mask : List Char) (n : ℕ) : List Char :=
  (List.replicate n mask).flatten

/-- One firing of the inputHandler closure of Inquir.mask
(src/src/inquir.ts lines 210 to 240).  A terminator (return or a control
chord) nulls the prompt, empties the buffer and detaches the listeners,
writing nothing.  Otherwise, with a live prompt, backspace reassigns
chars = chars.slice(0, chars.length - 2) while any other key appends the
raw input; both branches then redraw the line as the prompt followed by the
mask repeated once per character of the updated buffer.  JS slice with the
end point chars.length - 2 keeps max(length - 2, 0) leading characters,
which is List.take with truncated subtraction.  The second component is the
line written to the output stream, none when nothing is written. -/
def maskInputStep (mask : List Char) (st : MaskState) (key : MaskKey)
    (input : List Char) : MaskState × Option (List Char) :=
  if key = MaskKey.ret ∨ key = MaskKey.ctrl then
    ({ prompt := none, chars := [], listening := false }, none)
  else
    match st.prompt with
    | none => (st, none)
    | some p =>
      if key = MaskKey.backspace then
        let cs := st.chars.take (st.chars.length - 2)
        ({ st with chars := cs }, some (p ++ maskRepeat mask cs.length))
      else
        let cs := st.chars ++ input
        ({ st with chars := cs }, some (p ++ maskRepeat mask cs.length))

/-- Outcome of the (normalised) validation promise inside promptHandler:
the promise resolves with some value, or it rejects. -/
inductive ValidateOutcome
  | resolved (v : Bool)
  | rejected
deriving DecidableEq

/-- Observable side effects of the prompt flow: an error logged through the
Error styling path, the delimiter redrawn by setDelim, a question presented
through rl.question, a Response recorded into the result set. -/
inductive PromptEffect
  | logError
  | redrawDelim
  | presentQuestion
  | recordResponse
deriving DecidableEq

/-- The effects of the validation continuation wired inside promptHandler
(src/src/inquir.ts lines 642 to 649), granting the source the intended
promise wiring (as written, validate is the promisified function itself and
calling .then on it is already a TypeError).  The resolve branch has an
empty body, so any resolved value, true or false, produces no effect at
all: in particular no Response is recorded and no next question is asked.
The reject branch logs the error and redraws the prompt delimiter, and asks
nothing further. -/
def promptHandlerEffects : ValidateOutcome → List PromptEffect
  | ValidateOutcome.resolved _ => []
  | ValidateOutcome.rejected => [PromptEffect.logError, PromptEffect.redrawDelim]

/-- A value that can sit in the input-handler slot: the imported noop
function or a user-supplied handler.  JS functions are all truthy. -/
inductive HandlerVal
  | noop
  | user (n : ℕ)
deriving DecidableEq

/-- Truthiness of a handler value: every function is truthy in JS. -/
def jsTruthyFn : HandlerVal → Bool := fun _ => true

/-- What a call to Inquir.listen leads to: the synchronous configuration
throw, or a session started (readline initialised, delimiter rendered) with
the resolved handler. -/
inductive ListenOutcome
  | fatalError
  | session (h : HandlerVal)
deriving DecidableEq

/-- The handler resolution and guard at the top of Inquir.listen
(src/src/inquir.ts lines 667 to 680): handler = handler or options.onInput
or noop, then the missing-handler throw fires only when the resolved
handler is falsy; otherwise the session starts with the resolved handler. -/
def listen (explicitH onInputOpt : Option HandlerVal) : ListenOutcome :=
  let h := explicitH.getD (onInputOpt.getD HandlerVal.noop)
  if jsTruthyFn h then ListenOutcome.session h else ListenOutcome.fatalError

/-- Inquir.getOption (src/src/inquir.ts lines 266 to 268): a property read
of the options object. -/
def getOption {α : Type} (opts : List (String × α)) (k : String) : Option α :=
  mapGet opts k

/-- Inquir.setOption (src/src/inquir.ts lines 277 to 287) in its key-value
form: wraps the single key into an object and shallow-merges it onto the
options with extend, which assigns exactly that one property. -/
def setOption {α : Type} (opts : List (String × α)) (k : String) (v : α) :
    List (String × α) :=
  mapSet opts k v

/-- A store holding one question named x of registry foo and one question
named y of registry foobar, each added through its own freshly acquired
handle. -/
def c3Store : List (String × PromptDef) :=
  ((add "foobar"
      (acquire "foobar" ((add "foo" (acquire "foo" []) "x" {}).1.store))
      "y" {}).1).store

/-- One add, then destroy, then another add, all through one handle on an
initially empty namespace. -/
def c4Result : RegState × Option JSVal :=
  let h0 := acquire "app" []
  let h1 := (add "app" h0 "x" {}).1
  let h2 := destroy "app" h1
  add "app" h2 "y" {}

/-- Eleven adds through one fresh handle, producing ids 0 through 10. -/
def c5Inputs : List (String × PromptIn) :=
  [("a", {}), ("b", {}), ("c", {}), ("d", {}), ("e", {}), ("f", {}),
   ("g", {}), ("h", {}), ("i", {}), ("j", {}), ("k", {})]

/-- The registry state after the eleven adds. -/
def c5State : RegState := (addAll "app" (acquire "app" []) c5Inputs).1

/-- A registry holding exactly one question, with id 0. -/
def c6State : RegState := (add "app" (acquire "app" []) "x" {}).1

/-- The prompt text used in the masked-input evaluation. -/
def pwPrompt : List Char := ['p', 'w', ':', ' ']

/-- The delete character a terminal sends for backspace. -/
def bsChar : Char := Char.ofNat 127

/-- A live masked-input state whose buffer holds the three characters a, b
and c. -/
def c9State : MaskState :=
  { prompt := some pwPrompt,
    chars := ['a', 'b', 'c'],
    listening := true }

/-- Claim C1.  The source never implements the claimed retry and recording
behaviour: the validation continuation of promptHandler logs one error and
redraws the delimiter on rejection but presents no question again, and on a
resolved validation it does nothing at all, so no Response is ever
recorded, not even for an accepted answer. -/
theorem promptHandler_drops_responses :
    promptHandlerEffects ValidateOutcome.rejected
      = [PromptEffect.logError, PromptEffect.redrawDelim] ∧
    PromptEffect.presentQuestion ∉ promptHandlerEffects ValidateOutcome.rejected ∧
    PromptEffect.recordResponse ∉ promptHandlerEffects ValidateOutcome.rejected ∧
    promptHandlerEffects (ValidateOutcome.resolved true) = [] := by
  decide

/-- Claim C3.  getAll of registry foo also returns the question stored by
registry foobar, because the namespace filter is an unanchored-suffix,
case-insensitive prefix regular expression on the composite key. -/
theorem getAll_crosses_namespaces :
    (getAll "foo" c3Store).map PromptDef.name = ["x", "y"] := by
  decide

/-- Claim C4.  After destroy sets the closure counter to undefined, the
next add through the same handle computes undefined + 1 and assigns the id
NaN, not 0. -/
theorem destroy_then_add_assigns_nan :
    c4Result.2 = some JSVal.nan ∧ c4Result.2 ≠ some (JSVal.num 0) := by
  decide

/-- Claim C5.  With ids 0 through 10 present, lastId sorts the ids with the
default string comparator, so the popped maximum is 9, not the numerically
highest id 10. -/
theorem lastId_lexicographic :
    JSVal.num 10 ∈ (getAll "app" c5State.store).map PromptDef.id ∧
    lastId "app" c5State.store = some (JSVal.num 9) := by
  decide

/-- Claim C6.  Removing an absent id is not a logged no-op: getById yields
null and the source immediately reads its name property, which throws a
TypeError. -/
theorem removeById_absent_throws :
    getById "app" c6State.store 99 = none ∧
    removeById "app" c6State 99 = Except.error "TypeError" :=
  ⟨by decide, by rfl⟩

/-- Claim C7.  The completion resolver of an absent or empty fixed-list
source returns no completions and the line unchanged; the resolver of a
fixed list returns exactly the candidates of which the line is a prefix, in
particular the source add, remove, list with line a yields add alone. -/
theorem completion_filtering :
    (∀ l, completionHandler CompleterSrc.absent l = ([], l)) ∧
    (∀ l, completionHandler (CompleterSrc.fixed []) l = ([], l)) ∧
    (∀ cs l, completionHandler (CompleterSrc.fixed cs) l = (compFilter l cs, l)) ∧
    (∀ cs l c, c ∈ (completionHandler (CompleterSrc.fixed cs) l).1 ↔
      c ∈ cs ∧ startsWithL l.data c.data = true) ∧
    completionHandler (CompleterSrc.fixed ["add", "remove", "list"]) "a"
      = (["add"], "a") := by
  refine ⟨fun l => rfl, fun l => rfl, ?_, ?_, by decide⟩
  · intro cs l
    cases cs with
    | nil => rfl
    | cons a as => rfl
  · intro cs l c
    cases cs with
    | nil => simp [completionHandler, compFilter]
    | cons a as => simp [completionHandler, compFilter, List.mem_filter]

/-- Claim C8 counterexample.  Invoked with no explicit handler and no
onInput override, while the default options supply no input handler either,
listen does not raise the configuration error: it starts the session with
the built-in noop handler. -/
theorem listen_no_handler_starts_session :
    listen none none = ListenOutcome.session HandlerVal.noop := by
  decide

/-- Claim C8 amended.  listen never raises the missing-handler error: the
resolved handler always falls back to the imported noop function, which is
truthy, so the guard before the throw never fires and the session starts
with the resolved handler. -/
theorem listen_never_raises_missing_handler (e o : Option HandlerVal) :
    listen e o = ListenOutcome.session (e.getD (o.getD HandlerVal.noop)) :=
  rfl

/-- Claim C9.  On a backspace keystroke with buffer abc, the masked-input
handler shrinks the buffer by two characters, to a, and redraws the prompt
followed by a single mask character; a plain keystroke appends the input
and redraws one mask per buffered character. -/
theorem mask_backspace_removes_two :
    (maskInputStep ['*'] c9State MaskKey.backspace [bsChar]).1.chars = ['a'] ∧
    (maskInputStep ['*'] c9State MaskKey.backspace [bsChar]).2
      = some (pwPrompt ++ ['*']) ∧
    (maskInputStep ['*'] c9State MaskKey.other ['d']).1.chars
      = ['a', 'b', 'c', 'd'] := by
  decide

/-- Helper for claim C2: through one handle whose counter holds the integer
c, a sequence of adds with resolvable names assigns the consecutive ids
c + 1, c + 2, and so on, whatever the names and whatever the store. -/
theorem addAll_ids_aux (ns : String) (inputs : List (String × PromptIn)) :
    ∀ (s : List (String × PromptDef)) (c : ℤ),
      (∀ nm ∈ inputs.map Prod.fst, nm ≠ "") →
      (addAll ns ⟨s, JSVal.num c⟩ inputs).2
        = (List.range inputs.length).map (fun k : ℕ => JSVal.num (c + 1 + (k : ℤ))) := by
  induction inputs with
  | nil => intro s c _; rfl
  | cons hd tl ih =>
    intro s c hnm
    obtain ⟨nm, p⟩ := hd
    have hnm0 : nm ≠ "" := hnm nm (by simp)
    have htl : ∀ x ∈ tl.map Prod.fst, x ≠ "" := by
      intro x hx
      exact hnm x (by simp [hx])
    simp only [addAll, add, if_neg hnm0, jsIncr]
    rw [ih _ (c + 1) htl]
    simp only [List.length_cons]
    rw [List.range_succ_eq_map, List.map_cons, List.map_map]
    have hf : (fun k : ℕ => JSVal.num (c + 1 + 1 + (k : ℤ)))
        = ((fun k : ℕ => JSVal.num (c + 1 + (k : ℤ))) ∘ Nat.succ) := by
      funext k
      simp only [Function.comp]
      congr 1
      push_cast
      ring
    rw [hf]
    simp

/-- Claim C2.  Through one registry handle acquired on a namespace that is
empty (lastId reports null, so the counter is seeded to -1), every sequence
of add calls with resolvable names is assigned the ids 0, 1, 2, and so on,
strictly increasing by one, regardless of names, so in particular
regardless of overwrites: an overwritten name still consumes a fresh id. -/
theorem add_ids_start_at_zero (ns : String) (store : List (String × PromptDef))
    (inputs : List (String × PromptIn))
    (hempty : lastId ns store = none)
    (hnames : ∀ nm ∈ inputs.map Prod.fst, nm ≠ "") :
    (addAll ns (acquire ns store) inputs).2
      = (List.range inputs.length).map (fun k : ℕ => JSVal.num (k : ℤ)) := by
  have hacq : acquire ns store = ⟨store, JSVal.num (-1)⟩ := by
    simp [acquire, hempty]
  rw [hacq, addAll_ids_aux ns inputs store (-1) hnames]
  have hf : (fun k : ℕ => JSVal.num (-1 + 1 + (k : ℤ)))
      = fun k : ℕ => JSVal.num (k : ℤ) := by
    funext k
    congr 1
    omega
  rw [hf]

/-- Claim C2 witness: three adds through a fresh handle, the first name
overwritten by the second call, receive the ids 0, 1 and 2. -/
theorem add_ids_start_at_zero_witness :
    lastId "app" ([] : List (String × PromptDef)) = none ∧
    (∀ nm ∈ ([("x", {}), ("x", {}), ("y", {})] :
        List (String × PromptIn)).map Prod.fst, nm ≠ "") ∧
    (addAll "app" (acquire "app" []) [("x", {}), ("x", {}), ("y", {})]).2
      = [JSVal.num 0, JSVal.num 1, JSVal.num 2] :=
  ⟨by decide, by decide,
    (add_ids_start_at_zero "app" [] [("x", {}), ("x", {}), ("y", {})]
      (by decide) (by decide)).trans (by decide)⟩

/-- Reading back the key just written by mapSet yields the written value. -/
theorem mapGet_mapSet_self {α : Type} (m : List (String × α)) (k : String) (v : α) :
    mapGet (mapSet m k v) k = some v := by
  induction m with
  | nil => simp [mapSet, mapGet]
  | cons hd tl ih =>
    obtain ⟨k', v'⟩ := hd
    by_cases h : k' = k
    · simp [mapSet, mapGet, h]
    · simp [mapSet, mapGet, h, ih]

/-- Reading any other key after mapSet yields what it held before. -/
theorem mapGet_mapSet_ne {α : Type} (m : List (String × α)) (k k' : String)
    (v : α) (h : k' ≠ k) :
    mapGet (mapSet m k v) k' = mapGet m k' := by
  induction m with
  | nil => simp [mapSet, mapGet, Ne.symm h]
  | cons hd tl ih =>
    obtain ⟨a, b⟩ := hd
    by_cases ha : a = k
    · subst ha
      simp [mapSet, mapGet, Ne.symm h]
    · simp [mapSet, mapGet, ha, ih]

/-- Claim C10.  After setOption writes one key, getOption of that key
returns the written value and getOption of every other key returns exactly
what it returned before: the setter shallow-merges the single key and
leaves the rest of the options untouched. -/
theorem setOption_updates_only_key {α : Type} (opts : List (String × α))
    (k k' : String) (v : α) (h : k' ≠ k) :
    getOption (setOption opts k v) k = some v ∧
    getOption (setOption opts k v) k' = getOption opts k' :=
  ⟨mapGet_mapSet_self opts k v, mapGet_mapSet_ne opts k k' v h⟩

/-- Claim C10 witness: writing the colorize option of a two-entry options
object updates it and leaves the name option as it was. -/
theorem setOption_updates_only_key_witness :
    ("name" : String) ≠ "colorize" ∧
    getOption (setOption [("name", 1)] "colorize" 7) "colorize" = some 7 ∧
    getOption (setOption [("name", 1)] "colorize" 7) "name" = some 1 :=
  ⟨by decide,
    (setOption_updates_only_key [("name", 1)] "colorize" "name" 7 (by decide)).1,
    ((setOption_updates_only_key [("name", 1)] "colorize" "name" 7
      (by decide)).2).trans (by decide)⟩

end Inquir
